import Mathlib

/-!
Verification of the rate limiter of the finget repository, proxy route and
JSON adapter layer, via a shallow embedding of the TypeScript source.

Conventions of the embedding:
* JavaScript timestamps (`Date.now()`, window starts) are natural numbers
  of milliseconds.  `a - b` on JS numbers appearing in comparisons such as
  `(now - entry.windowStart) > WINDOW_SIZE` is embedded as truncated `Nat`
  subtraction, which agrees with the JS comparison for every pair of
  naturals (a negative JS difference and a truncated-to-zero difference
  compare to `WINDOW_SIZE` identically).
* `Math.ceil(x / 1000)` on a nonnegative integer `x` is `(x + 999) / 1000`
  in `Nat` division.
* The mutable module-level `Map` of the rate limiter is threaded
  explicitly: each stateful function takes the store and returns the
  updated store.
-/

namespace Finget

/-! ## Rate limiter (src/unnamed/part_000) -/

/-- Entry of the in-memory rate-limit store: `{ count, windowStart }`. -/
structure RateLimitEntry where
  count : Nat
  windowStart : Nat
deriving DecidableEq

/-- Constant `WINDOW_SIZE = 60 * 1000` (milliseconds). -/
def WINDOW_SIZE : Nat := 60 * 1000

/-- Constant `MAX_REQUESTS = 60`. -/
def MAX_REQUESTS : Nat := 60

/-- The `rateLimitStore : Map<string, RateLimitEntry>`, as a total lookup
function (absent keys map to `none`). -/
abbrev RateLimitStore := String → Option RateLimitEntry

/-- Result object of `rateLimitMiddleware`: `{ allowed }` or
`{ allowed: false, retryAfter }`. -/
structure RateLimitResult where
  allowed : Bool
  retryAfter : Option Nat
deriving DecidableEq

/-- Function `rateLimitMiddleware(identifier)` from src/unnamed/part_000, with the
implicit `Date.now()` and the mutable store made explicit.  Returns the
result object and the store after the call. -/
def rateLimitMiddleware (now : Nat) (store : RateLimitStore) (identifier : String) :
    RateLimitResult × RateLimitStore :=
  match store identifier with
  | none =>
      (⟨true, none⟩, fun id => if id = identifier then some ⟨1, now⟩ else store id)
  | some entry =>
      if now - entry.windowStart > WINDOW_SIZE then
        (⟨true, none⟩, fun id => if id = identifier then some ⟨1, now⟩ else store id)
      else if entry.count ≥ MAX_REQUESTS then
        (⟨false, some ((entry.windowStart + WINDOW_SIZE - now + 999) / 1000)⟩, store)
      else
        (⟨true, none⟩,
         fun id => if id = identifier then some ⟨entry.count + 1, entry.windowStart⟩ else store id)

/-- Result object of `getRateLimitStatus`: `{ remaining, resetTime }`. -/
structure RateLimitStatus where
  remaining : Nat
  resetTime : Nat
deriving DecidableEq

/-- Function `getRateLimitStatus(identifier)` from src/unnamed/part_000.  The source
only reads the store (`rateLimitStore.get`), so the embedding is a pure
function of the current time, the store and the identifier; `Math.max(0, ...)`
coincides with truncated `Nat` subtraction. -/
def getRateLimitStatus (now : Nat) (store : RateLimitStore) (identifier : String) :
    RateLimitStatus :=
  match store identifier with
  | none => ⟨MAX_REQUESTS, (now + WINDOW_SIZE + 999) / 1000⟩
  | some entry =>
      if now - entry.windowStart > WINDOW_SIZE then
        ⟨MAX_REQUESTS, (now + WINDOW_SIZE + 999) / 1000⟩
      else
        ⟨MAX_REQUESTS - entry.count, (entry.windowStart + WINDOW_SIZE + 999) / 1000⟩

/-- Body of the `setInterval` cleanup sweep from src/unnamed/part_000:
delete every entry with `(now - entry.windowStart) > WINDOW_SIZE`. -/
def sweepStore (now : Nat) (store : RateLimitStore) : RateLimitStore :=
  fun id =>
    match store id with
    | some entry => if now - entry.windowStart > WINDOW_SIZE then none else some entry
    | none => none

/-- Number of calls of `rateLimitMiddleware` for a fixed identifier, at the
given successive times, that return `allowed = true`. -/
def allowedCount (identifier : String) : RateLimitStore → List Nat → Nat
  | _, [] => 0
  | store, t :: ts =>
      let r := rateLimitMiddleware t store identifier
      (if r.1.allowed then 1 else 0) + allowedCount identifier r.2 ts

theorem allowedCount_le (identifier : String) (ts : List Nat) :
    ∀ (store : RateLimitStore) (c ws : Nat),
      store identifier = some ⟨c, ws⟩ →
      (∀ t ∈ ts, t - ws ≤ WINDOW_SIZE) →
      allowedCount identifier store ts ≤ MAX_REQUESTS - c := by
  induction ts with
  | nil => intro store c ws _ _; simp [allowedCount]
  | cons t ts ih =>
      intro store c ws hstore hin
      have hwin : ¬ (t - ws > WINDOW_SIZE) := by
        have := hin t (by simp)
        omega
      by_cases hc : c ≥ MAX_REQUESTS
      · have hstep :
            rateLimitMiddleware t store identifier =
              (⟨false, some ((ws + WINDOW_SIZE - t + 999) / 1000)⟩, store) := by
          simp [rateLimitMiddleware, hstore, hwin, hc]
        have hrec := ih store c ws hstore (fun x hx => hin x (by simp [hx]))
        simp [allowedCount, hstep]
        omega
      · have hstep :
            rateLimitMiddleware t store identifier =
              (⟨true, none⟩,
               fun id => if id = identifier then some ⟨c + 1, ws⟩ else store id) := by
          simp [rateLimitMiddleware, hstore, hwin, hc]
        have hrec := ih (fun id => if id = identifier then some ⟨c + 1, ws⟩ else store id)
          (c + 1) ws (by simp) (fun x hx => hin x (by simp [hx]))
        simp [allowedCount, hstep]
        omega

/-- Claim C1: `rateLimitMiddleware` implements a fixed 60-second window with
threshold 60.  (1) A first call for an identifier starts a new window with
count 1 and is allowed; (2) a call strictly more than 60 seconds after the
stored window start starts a new window with count 1 and is allowed; (3) a
call inside the current window with count below 60 is allowed and increments
the count; (4) a call inside the current window once the count has reached 60
is rejected; (5) hence at most 60 calls are allowed within one window: after
the window-opening call (count 1), any further calls made inside that window
yield at most `MAX_REQUESTS` allowed calls in total. -/
theorem rateLimitMiddleware_fixed_window :
    (∀ (now : Nat) (store : RateLimitStore) (id : String),
        store id = none →
        (rateLimitMiddleware now store id).1.allowed = true ∧
        (rateLimitMiddleware now store id).2 id = some ⟨1, now⟩) ∧
    (∀ (now : Nat) (store : RateLimitStore) (id : String) (e : RateLimitEntry),
        store id = some e → now - e.windowStart > WINDOW_SIZE →
        (rateLimitMiddleware now store id).1.allowed = true ∧
        (rateLimitMiddleware now store id).2 id = some ⟨1, now⟩) ∧
    (∀ (now : Nat) (store : RateLimitStore) (id : String) (e : RateLimitEntry),
        store id = some e → now - e.windowStart ≤ WINDOW_SIZE →
        e.count < MAX_REQUESTS →
        (rateLimitMiddleware now store id).1.allowed = true ∧
        (rateLimitMiddleware now store id).2 id = some ⟨e.count + 1, e.windowStart⟩) ∧
    (∀ (now : Nat) (store : RateLimitStore) (id : String) (e : RateLimitEntry),
        store id = some e → now - e.windowStart ≤ WINDOW_SIZE →
        MAX_REQUESTS ≤ e.count →
        (rateLimitMiddleware now store id).1.allowed = false) ∧
    (∀ (ws : Nat) (ts : List Nat) (store : RateLimitStore) (id : String),
        store id = some ⟨1, ws⟩ →
        (∀ t ∈ ts, t - ws ≤ WINDOW_SIZE) →
        allowedCount id store ts + 1 ≤ MAX_REQUESTS) := by
  refine ⟨?_, ?_, ?_, ?_, ?_⟩
  · intro now store id h
    simp [rateLimitMiddleware, h]
  · intro now store id e h hexp
    simp [rateLimitMiddleware, h, hexp]
  · intro now store id e h hwin hc
    have hwin2 : ¬ (now - e.windowStart > WINDOW_SIZE) := by omega
    have hc2 : ¬ (e.count ≥ MAX_REQUESTS) := by omega
    simp [rateLimitMiddleware, h, hwin2, hc2]
  · intro now store id e h hwin hc
    have hwin2 : ¬ (now - e.windowStart > WINDOW_SIZE) := by omega
    simp [rateLimitMiddleware, h, hwin2, hc]
  · intro ws ts store id h hin
    have := allowedCount_le id ts store 1 ws h hin
    have hmax : (1 : Nat) ≤ MAX_REQUESTS := by simp [MAX_REQUESTS]
    omega

/-- Closed instance of `rateLimitMiddleware_fixed_window`: a first call for
an identifier on the empty store is allowed. -/
theorem rateLimitMiddleware_fixed_window_witness :
    (rateLimitMiddleware 1000 (fun _ => none) "1.2.3.4").1.allowed = true :=
  (rateLimitMiddleware_fixed_window.1 1000 (fun _ => none) "1.2.3.4" rfl).1

theorem middleware_frame (now : Nat) (store : RateLimitStore) (id id2 : String)
    (hne : id2 ≠ id) : (rateLimitMiddleware now store id).2 id2 = store id2 := by
  cases h : store id with
  | none => simp [rateLimitMiddleware, h, hne]
  | some e =>
      by_cases hexp : now - e.windowStart > WINDOW_SIZE
      · simp [rateLimitMiddleware, h, hexp, hne]
      · by_cases hc : e.count ≥ MAX_REQUESTS
        · simp [rateLimitMiddleware, h, hexp, hc]
        · simp [rateLimitMiddleware, h, hexp, hc, hne]

theorem middleware_result_congr (n : Nat) (s1 s2 : RateLimitStore) (id : String)
    (h : s1 id = s2 id) :
    (rateLimitMiddleware n s1 id).1 = (rateLimitMiddleware n s2 id).1 := by
  unfold rateLimitMiddleware
  rw [h]
  cases s2 id with
  | none => rfl
  | some e =>
      dsimp only
      split_ifs <;> rfl

theorem middleware_store_self_congr (n : Nat) (s1 s2 : RateLimitStore) (id : String)
    (h : s1 id = s2 id) :
    (rateLimitMiddleware n s1 id).2 id = (rateLimitMiddleware n s2 id).2 id := by
  unfold rateLimitMiddleware
  rw [h]
  cases hs : s2 id with
  | none => simp
  | some e =>
      dsimp only
      split_ifs <;> simp [hs, h.trans hs]

theorem status_congr (n : Nat) (s1 s2 : RateLimitStore) (id : String)
    (h : s1 id = s2 id) : getRateLimitStatus n s1 id = getRateLimitStatus n s2 id := by
  unfold getRateLimitStatus
  rw [h]

/-- Claim C3: the store is keyed per identifier.  (1) `rateLimitMiddleware id`
leaves the entry of every other identifier unchanged; consequently (2) the
allow/reject decision and (3) the reported status for one identifier are
unaffected by a request made under any other identifier.
(`getRateLimitStatus` only reads the store in the source, so its embedding is
pure and modifies no entry by construction.) -/
theorem rateLimitMiddleware_frame :
    (∀ (now : Nat) (store : RateLimitStore) (id id2 : String), id2 ≠ id →
        (rateLimitMiddleware now store id).2 id2 = store id2) ∧
    (∀ (n1 n2 : Nat) (store : RateLimitStore) (id id2 : String), id2 ≠ id →
        (rateLimitMiddleware n2 ((rateLimitMiddleware n1 store id2).2) id).1 =
          (rateLimitMiddleware n2 store id).1) ∧
    (∀ (n1 n2 : Nat) (store : RateLimitStore) (id id2 : String), id2 ≠ id →
        getRateLimitStatus n2 ((rateLimitMiddleware n1 store id2).2) id =
          getRateLimitStatus n2 store id) := by
  refine ⟨middleware_frame, ?_, ?_⟩
  · intro n1 n2 store id id2 hne
    exact middleware_result_congr n2 _ store id
      (middleware_frame n1 store id2 id (fun h => hne h.symm))
  · intro n1 n2 store id id2 hne
    exact status_congr n2 _ store id
      (middleware_frame n1 store id2 id (fun h => hne h.symm))

/-- Closed instance of `rateLimitMiddleware_frame`: a call for one identifier
leaves the (empty) entry of another identifier unchanged. -/
theorem rateLimitMiddleware_frame_witness :
    (rateLimitMiddleware 5 (fun _ => none) "a").2 "b" = none :=
  rateLimitMiddleware_frame.1 5 (fun _ => none) "a" "b" (by decide)

/-- Claim C10: at every moment and on every store, `rateLimitMiddleware`
allows a call for an identifier exactly when `getRateLimitStatus` reports a
strictly positive remaining quota for it. -/
theorem rateLimitMiddleware_allowed_iff_remaining_pos :
    ∀ (now : Nat) (store : RateLimitStore) (id : String),
      (rateLimitMiddleware now store id).1.allowed = true ↔
        0 < (getRateLimitStatus now store id).remaining := by
  intro now store id
  cases h : store id with
  | none => simp [rateLimitMiddleware, getRateLimitStatus, h, MAX_REQUESTS]
  | some e =>
      by_cases hexp : now - e.windowStart > WINDOW_SIZE
      · simp [rateLimitMiddleware, getRateLimitStatus, h, hexp, MAX_REQUESTS]
      · by_cases hc : e.count ≥ MAX_REQUESTS
        · simp [rateLimitMiddleware, getRateLimitStatus, h, hexp, hc]
        · simp [rateLimitMiddleware, getRateLimitStatus, h, hexp, hc]
          omega

/-! ## Proxy route (src/src/app/api/proxy/route.ts)

String operations are implemented over character lists (rather than through
the position-based string functions of the library) so that they compute by
kernel reduction; they mirror the JavaScript semantics of `trim`,
`split` / first component and the falsy-chaining `or` on nullable strings. -/

/-- ASCII whitespace, the fragment of the JS `trim` whitespace class
relevant to header values. -/
def jsWhitespaceChar (c : Char) : Bool :=
  (c == ' ') || (c == '\t') || (c == '\n') || (c == '\r') || (c == '\x0b') || (c == '\x0c')

/-- JS `s.trim()`. -/
def jsTrim (s : String) : String :=
  String.mk (((s.toList.dropWhile jsWhitespaceChar).reverse.dropWhile jsWhitespaceChar).reverse)

/-- JS split on comma, first component: the characters before the first comma. -/
def firstCommaSegment (s : String) : String :=
  String.mk (s.toList.takeWhile (fun c => !(c == ',')))

/-- JS `a || b` where `a` is a nullable string (`null` and `""` are falsy). -/
def strFalsyOr (a : Option String) (b : String) : String :=
  match a with
  | some s => if s = "" then b else s
  | none => b

/-- The identifier the proxy route rate-limits on:
first comma-segment of the trimmed chain xff, else xri, else the literal string unknown. -/
def clientIdentifier (xff xri : Option String) : String :=
  jsTrim (firstCommaSegment (strFalsyOr xff (strFalsyOr xri "unknown")))

/-- Observable outcome of the proxy `GET` handler, up to the point where it
would contact the upstream: HTTP status, `error` body field, `retryAfter`
body field, and the upstream URL fetched (`none` when no fetch happens).
The upstream interaction itself and the rate-limit response headers are
outside the modelled claims. -/
structure ProxyResponse where
  status : Nat
  errorMsg : Option String
  retryAfter : Option Nat
  fetchedUrl : Option String
deriving DecidableEq

/-- The `GET` handler of src/src/app/api/proxy/route.ts: rate limit on the
client identifier, answer 429 on rejection, then require and validate the
`url` query parameter (URL-format validation is abstracted as `validUrl`)
and fetch it.  A missing or empty `url` parameter is falsy in the guard
of the source. -/
def proxyGET (validUrl : String → Bool) (now : Nat) (store : RateLimitStore)
    (xff xri urlParam : Option String) : ProxyResponse × RateLimitStore :=
  let identifier := clientIdentifier xff xri
  let r := rateLimitMiddleware now store identifier
  if r.1.allowed = false then
    (⟨429, some "Rate limit exceeded", r.1.retryAfter, none⟩, r.2)
  else
    let url := match urlParam with | none => "" | some u => u
    if url = "" then (⟨400, some "URL parameter required", none, none⟩, r.2)
    else if validUrl url then (⟨200, none, none, some url⟩, r.2)
    else (⟨400, some "Invalid URL format", none, none⟩, r.2)

theorem rateLimitMiddleware_reject_retryAfter (now : Nat) (store : RateLimitStore)
    (id : String) (h : (rateLimitMiddleware now store id).1.allowed = false) :
    ∃ e, store id = some e ∧
      (rateLimitMiddleware now store id).1.retryAfter =
        some ((e.windowStart + WINDOW_SIZE - now + 999) / 1000) := by
  cases hs : store id with
  | none => simp [rateLimitMiddleware, hs] at h
  | some e =>
      by_cases hexp : now - e.windowStart > WINDOW_SIZE
      · simp [rateLimitMiddleware, hs, hexp] at h
      · by_cases hc : e.count ≥ MAX_REQUESTS
        · exact ⟨e, rfl, by simp [rateLimitMiddleware, hs, hexp, hc]⟩
        · simp [rateLimitMiddleware, hs, hexp, hc] at h

/-- Claim C2: if `rateLimitMiddleware` rejects the identifier of the request
(first entry of the x-forwarded-for header, else x-real-ip, else the
literal unknown, trimmed), the proxy `GET` route responds 429 with an
error body carrying the rate-limit message and `retryAfter`, fetching nothing, where
`retryAfter` is the number of seconds, rounded up, until the stored window
ends: `ceil((windowStart + 60000 - now) / 1000)`. -/
theorem proxyGET_rate_limited :
    ∀ (validUrl : String → Bool) (now : Nat) (store : RateLimitStore)
      (xff xri urlParam : Option String),
      (rateLimitMiddleware now store (clientIdentifier xff xri)).1.allowed = false →
      (proxyGET validUrl now store xff xri urlParam).1.status = 429 ∧
      (proxyGET validUrl now store xff xri urlParam).1.errorMsg = some "Rate limit exceeded" ∧
      (proxyGET validUrl now store xff xri urlParam).1.fetchedUrl = none ∧
      ∃ e, store (clientIdentifier xff xri) = some e ∧
        (proxyGET validUrl now store xff xri urlParam).1.retryAfter =
          some ((e.windowStart + WINDOW_SIZE - now + 999) / 1000) := by
  intro validUrl now store xff xri urlParam h
  obtain ⟨e, he, hretry⟩ := rateLimitMiddleware_reject_retryAfter now store
    (clientIdentifier xff xri) h
  refine ⟨?_, ?_, ?_, e, he, ?_⟩ <;> simp [proxyGET, h, hretry]

/-- Store for the closed instance of `proxyGET_rate_limited`: the identifier
`1.2.3.4` has exhausted its window that started at time 0. -/
def exhaustedStore : RateLimitStore :=
  fun id => if id = "1.2.3.4" then some ⟨60, 0⟩ else none

/-- Closed instance of `proxyGET_rate_limited`: at time 1000 ms, a request
whose `x-forwarded-for` is `"1.2.3.4, 9.9.9.9"` is answered with 429. -/
theorem proxyGET_rate_limited_witness :
    (proxyGET (fun _ => true) 1000 exhaustedStore (some "1.2.3.4, 9.9.9.9")
      none none).1.status = 429 :=
  (proxyGET_rate_limited (fun _ => true) 1000 exhaustedStore (some "1.2.3.4, 9.9.9.9")
    none none (by decide)).1

/-! ## The periodic cleanup sweep is observationally transparent (C4) -/

/-- An operation on the shared rate-limit store: a middleware call, a status
query, or one run of the `setInterval` cleanup sweep, each at a point in
time. -/
inductive LimiterOp where
  | call (t : Nat) (id : String)
  | status (t : Nat) (id : String)
  | sweep (t : Nat)
deriving DecidableEq

/-- Time at which an operation happens. -/
def LimiterOp.time : LimiterOp → Nat
  | .call t _ => t
  | .status t _ => t
  | .sweep t => t

/-- Observable outcome of a single operation (the sweep produces none). -/
inductive LimiterObs where
  | callObs (r : RateLimitResult)
  | statusObs (s : RateLimitStatus)
deriving DecidableEq

/-- One operation against the store. -/
def stepOp (store : RateLimitStore) : LimiterOp → Option LimiterObs × RateLimitStore
  | .call t id =>
      let r := rateLimitMiddleware t store id
      (some (.callObs r.1), r.2)
  | .status t id => (some (.statusObs (getRateLimitStatus t store id)), store)
  | .sweep t => (none, sweepStore t store)

/-- The observations produced by a sequence of operations. -/
def runOps (store : RateLimitStore) : List LimiterOp → List LimiterObs
  | [] => []
  | op :: ops =>
      let s := stepOp store op
      s.1.toList ++ runOps s.2 ops

/-- The same operation sequence with every cleanup sweep removed. -/
def dropSweeps : List LimiterOp → List LimiterOp :=
  List.filter (fun op => match op with | .sweep _ => false | _ => true)

/-- Predicate `timesMono t ops` holds when the operations happen at nondecreasing
times, all at or after `t`. -/
def timesMono : Nat → List LimiterOp → Bool
  | _, [] => true
  | t, op :: ops => Nat.ble t op.time && timesMono op.time ops

/-- Simulation relation between a store that has been swept (`s1`) and one
that has not (`s2`): they agree everywhere except that `s1` may lack entries
of `s2` that are already expired at time `t`. -/
def StoreRel (t : Nat) (s1 s2 : RateLimitStore) : Prop :=
  ∀ id, s1 id = s2 id ∨
    (s1 id = none ∧ ∃ e, s2 id = some e ∧ t - e.windowStart > WINDOW_SIZE)

theorem storeRel_refl (t : Nat) (s : RateLimitStore) : StoreRel t s s :=
  fun _ => Or.inl rfl

theorem storeRel_mono {t u : Nat} {s1 s2 : RateLimitStore} (ht : t ≤ u)
    (h : StoreRel t s1 s2) : StoreRel u s1 s2 := by
  intro id
  rcases h id with heq | ⟨h1, e, h2, hexp⟩
  · exact Or.inl heq
  · exact Or.inr ⟨h1, e, h2, by omega⟩

theorem storeRel_sweep (t : Nat) {s1 s2 : RateLimitStore} (h : StoreRel t s1 s2) :
    StoreRel t (sweepStore t s1) s2 := by
  intro id
  rcases h id with heq | ⟨h1, e, h2, hexp⟩
  · cases hs : s1 id with
    | none => exact Or.inl (by simp [sweepStore, hs, heq ▸ hs])
    | some e =>
        by_cases hexp : t - e.windowStart > WINDOW_SIZE
        · exact Or.inr ⟨by simp [sweepStore, hs, hexp], e, heq ▸ hs, hexp⟩
        · exact Or.inl (by simp [sweepStore, hs, hexp, heq ▸ hs])
  · exact Or.inr ⟨by simp [sweepStore, h1], e, h2, hexp⟩

theorem storeRel_call (t : Nat) {s1 s2 : RateLimitStore} (id : String)
    (h : StoreRel t s1 s2) :
    (rateLimitMiddleware t s1 id).1 = (rateLimitMiddleware t s2 id).1 ∧
    StoreRel t (rateLimitMiddleware t s1 id).2 (rateLimitMiddleware t s2 id).2 := by
  rcases h id with heq | ⟨h1, e, h2, hexp⟩
  · refine ⟨middleware_result_congr t s1 s2 id heq, ?_⟩
    intro x
    by_cases hx : x = id
    · subst hx
      exact Or.inl (middleware_store_self_congr t s1 s2 x heq)
    · rw [middleware_frame t s1 id x hx, middleware_frame t s2 id x hx]
      rcases h x with heq2 | ⟨hx1, e2, hx2, hexp2⟩
      · exact Or.inl heq2
      · exact Or.inr ⟨hx1, e2, hx2, hexp2⟩
  · have e1 : rateLimitMiddleware t s1 id =
        (⟨true, none⟩, fun x => if x = id then some ⟨1, t⟩ else s1 x) := by
      simp [rateLimitMiddleware, h1]
    have e2 : rateLimitMiddleware t s2 id =
        (⟨true, none⟩, fun x => if x = id then some ⟨1, t⟩ else s2 x) := by
      simp [rateLimitMiddleware, h2, hexp]
    refine ⟨by rw [e1, e2], ?_⟩
    intro x
    by_cases hx : x = id
    · subst hx; rw [e1, e2]; simp
    · rw [e1, e2]
      simp only [if_neg hx]
      rcases h x with heq2 | ⟨hx1, e3, hx2, hexp2⟩
      · exact Or.inl heq2
      · exact Or.inr ⟨hx1, e3, hx2, hexp2⟩

theorem storeRel_status (t : Nat) {s1 s2 : RateLimitStore} (id : String)
    (h : StoreRel t s1 s2) :
    getRateLimitStatus t s1 id = getRateLimitStatus t s2 id := by
  rcases h id with heq | ⟨h1, e, h2, hexp⟩
  · exact status_congr t s1 s2 id heq
  · simp [getRateLimitStatus, h1, h2, hexp]

theorem runOps_rel (ops : List LimiterOp) :
    ∀ (t : Nat) (s1 s2 : RateLimitStore), timesMono t ops = true → StoreRel t s1 s2 →
      runOps s1 ops = runOps s2 (dropSweeps ops) := by
  induction ops with
  | nil => intro t s1 s2 _ _; rfl
  | cons op ops ih =>
      intro t s1 s2 hmono hrel
      have hmono2 : t ≤ op.time ∧ timesMono op.time ops = true := by
        simpa [timesMono, Nat.ble_eq] using hmono
      have hrel2 : StoreRel op.time s1 s2 := storeRel_mono hmono2.1 hrel
      cases op with
      | call u id =>
          have hc := storeRel_call u id hrel2
          have := ih u _ _ hmono2.2 hc.2
          simp only [runOps, dropSweeps, List.filter, stepOp]
          simpa [runOps, stepOp, hc.1, dropSweeps] using this
      | status u id =>
          have hs := storeRel_status u id hrel2
          have := ih u s1 s2 hmono2.2 hrel2
          simpa [runOps, stepOp, dropSweeps, hs] using this
      | sweep u =>
          have hsw := storeRel_sweep u hrel2
          have := ih u _ s2 hmono2.2 hsw
          simpa [runOps, stepOp, dropSweeps] using this

/-- Claim C4: (1) the cleanup sweep deletes exactly the entries whose window
start lies strictly more than 60 seconds in the past, (2) keeps every other
entry unchanged, and (3) running the limiter with interleaved sweeps (at
nondecreasing times) is observationally equivalent to running it with all
sweeps removed: every `rateLimitMiddleware` and `getRateLimitStatus` call
yields the same result, because both already treat an expired entry like an
absent one. -/
theorem sweep_exact_and_transparent :
    (∀ (now : Nat) (store : RateLimitStore) (id : String),
        sweepStore now store id = none ↔
          store id = none ∨
            ∃ e, store id = some e ∧ now - e.windowStart > WINDOW_SIZE) ∧
    (∀ (now : Nat) (store : RateLimitStore) (id : String) (e : RateLimitEntry),
        store id = some e → now - e.windowStart ≤ WINDOW_SIZE →
        sweepStore now store id = some e) ∧
    (∀ (ops : List LimiterOp) (s : RateLimitStore), timesMono 0 ops = true →
        runOps s ops = runOps s (dropSweeps ops)) := by
  refine ⟨?_, ?_, ?_⟩
  · intro now store id
    cases hs : store id with
    | none => simp [sweepStore, hs]
    | some e =>
        by_cases hexp : now - e.windowStart > WINDOW_SIZE
        · simp [sweepStore, hs, hexp]
        · simp [sweepStore, hs, hexp]
  · intro now store id e hs hexp
    simp [sweepStore, hs]
    omega
  · intro ops s hmono
    exact runOps_rel ops 0 s s hmono (storeRel_refl 0 s)

/-- Closed instance of `sweep_exact_and_transparent`: on a trace that
interleaves a sweep between two calls and a status query, the observations
equal those of the sweep-free trace. -/
theorem sweep_exact_and_transparent_witness :
    runOps (fun _ => none)
        [LimiterOp.call 100 "a", LimiterOp.sweep 70000,
         LimiterOp.call 70050 "a", LimiterOp.status 70060 "a"] =
      runOps (fun _ => none)
        (dropSweeps
          [LimiterOp.call 100 "a", LimiterOp.sweep 70000,
           LimiterOp.call 70050 "a", LimiterOp.status 70060 "a"]) :=
  sweep_exact_and_transparent.2.2
    [LimiterOp.call 100 "a", LimiterOp.sweep 70000,
     LimiterOp.call 70050 "a", LimiterOp.status 70060 "a"]
    (fun _ => none) (by decide)

/-! ## JavaScript value model for the adapter layer

JS numbers are idealized as exact rationals together with `NaN`
(`Infinity` and binary-float rounding are outside the model; none of the
modelled claims depends on them).  String operations are implemented over
character lists so that they compute by kernel reduction. -/

/-- A JS number: `NaN` or a (rational-idealized) finite value. -/
inductive JsNum where
  | nan : JsNum
  | val (q : ℚ) : JsNum
deriving DecidableEq

/-- A JS value as the adapters see it (anything `JSON.parse` can produce,
plus `undefined`). -/
inductive JsVal where
  | undefined : JsVal
  | null : JsVal
  | bool (b : Bool) : JsVal
  | num (n : JsNum) : JsVal
  | str (s : String) : JsVal
  | arr (elems : List JsVal) : JsVal
  | obj (fields : List (String × JsVal)) : JsVal

/-- JS `s.toLowerCase()` (ASCII; the adapters only lower-case field names). -/
def lowerStr (s : String) : String :=
  String.mk (s.toList.map Char.toLower)

/-- Whether `pat` occurs as a contiguous run inside `cs`. -/
def includesChars (pat : List Char) : List Char → Bool
  | [] => pat.isEmpty
  | c :: cs => pat.isPrefixOf (c :: cs) || includesChars pat cs

/-- JS `s.includes(pat)`. -/
def strIncludes (s pat : String) : Bool :=
  includesChars pat.toList s.toList

/-- JS truthiness of a value (`undefined`, `null`, `false`, `NaN`, `0` and
the empty string are falsy). -/
def truthy : JsVal → Bool
  | .undefined => false
  | .null => false
  | .bool b => b
  | .num .nan => false
  | .num (.val q) => if q = 0 then false else true
  | .str s => if s = "" then false else true
  | .arr _ => true
  | .obj _ => true

/-- JS `a || b` on values. -/
def jsOr (a b : JsVal) : JsVal := if truthy a then a else b

/-- Nullish values, `undefined` or `null` (property access on these throws). -/
def isNullish : JsVal → Bool
  | .null => true
  | .undefined => true
  | _ => false

/-- Value of a decimal digit string (caller guarantees digits only). -/
def digitsVal (ds : List Char) : Nat :=
  ds.foldl (fun a c => a * 10 + (c.toNat - 48)) 0

/-- A string that is a canonical array index (`"0"`, `"17"`, ... but not
`"00"`), as JS array property lookup treats it. -/
def strAsIndex (k : String) : Option Nat :=
  let cs := k.toList
  if cs.isEmpty then none
  else if cs.all Char.isDigit && (Nat.repr (digitsVal cs) == k) then some (digitsVal cs)
  else none

/-- First binding of a key in the field list of an object (the model assumes the
distinct keys JS object semantics guarantees). -/
def lookupField : List (String × JsVal) → String → JsVal
  | [], _ => .undefined
  | (k2, v) :: fs, k => if k = k2 then v else lookupField fs k

/-- JS property access `v[k]` on a non-nullish receiver: object lookup,
canonical-index / `length` access on arrays and strings, `undefined` on
other primitives. -/
def jsGet : JsVal → String → JsVal
  | .obj fs, k => lookupField fs k
  | .arr xs, k =>
      (match strAsIndex k with
       | some n => xs.getD n .undefined
       | none => if k = "length" then .num (.val xs.length) else .undefined)
  | .str s, k =>
      (match strAsIndex k with
       | some n =>
           (match s.toList.get? n with
            | some c => .str (String.mk [c])
            | none => .undefined)
       | none => if k = "length" then .num (.val s.toList.length) else .undefined)
  | _, _ => .undefined

/-- JS `Object.entries(v)`: the fields of an object in order; the
elements of an array under their index strings; nothing for primitives.  (String
receivers never reach `Object.entries`/`Object.keys` on the modelled
paths.) -/
def jsEntries : JsVal → List (String × JsVal)
  | .obj fs => fs
  | .arr xs => ((List.range xs.length).map Nat.repr).zip xs
  | _ => []

/-- JS `Object.keys(v)`. -/
def jsKeys (v : JsVal) : List String := (jsEntries v).map Prod.fst

/-- JS `Object.values(v)`. -/
def jsValues (v : JsVal) : List JsVal := (jsEntries v).map Prod.snd

/-- Decimal digits of `r / d` (`0 ≤ r < d`), down to at most `fuel` digits:
the idealized rendering of the fractional part of a number. -/
def fracDigits : Nat → Nat → Nat → List Char
  | 0, _, _ => []
  | fuel + 1, r, d =>
      if r = 0 then []
      else Char.ofNat (48 + r * 10 / d) :: fracDigits fuel (r * 10 % d) d

/-- Idealized JS number-to-string rendering of a finite value: sign,
integer part, and the decimal expansion of the fractional part (truncated
at 100 digits; JS renders the shortest round-tripping decimal of its
binary floats, which the rational idealization renders exactly for the
terminating expansions the adapters meet). -/
def ratToString (q : ℚ) : String :=
  let sign := if q.num < 0 then "-" else ""
  let n := q.num.natAbs
  let d := q.den
  let frac := fracDigits 100 (n % d) d
  if frac.isEmpty then sign ++ Nat.repr (n / d)
  else sign ++ Nat.repr (n / d) ++ "." ++ String.mk frac

mutual

/-- JS `String(v)`. -/
def jsToString : JsVal → String
  | .undefined => "undefined"
  | .null => "null"
  | .bool true => "true"
  | .bool false => "false"
  | .num .nan => "NaN"
  | .num (.val q) => ratToString q
  | .str s => s
  | .arr xs => jsArrJoin xs
  | .obj _ => "[object Object]"

/-- JS array stringification, a comma-join where `null` and
`undefined` elements render as the empty string. -/
def jsArrJoin : List JsVal → String
  | [] => ""
  | v :: vs =>
      (match v with
       | .null => ""
       | .undefined => ""
       | w => jsToString w) ++ (if vs.isEmpty then "" else ",") ++ jsArrJoin vs

end

/-- Longest digit run at the front: `(digits, rest)`. -/
def takeDigits (cs : List Char) : List Char × List Char :=
  (cs.takeWhile Char.isDigit, cs.dropWhile Char.isDigit)

/-- JS `parseFloat(s)`: skip leading whitespace, read an optional sign, a
longest valid decimal literal with optional fraction and exponent, `NaN`
when no digits are found.  (`"Infinity"` falls outside the finite-number
model and parses to `NaN` here.) -/
def jsParseFloat (s : String) : JsNum :=
  let cs0 := s.toList.dropWhile (fun c => jsWhitespaceChar c)
  let sgn : ℚ := match cs0 with | '-' :: _ => -1 | _ => 1
  let cs1 := match cs0 with | '+' :: r => r | '-' :: r => r | r => r
  let ip := (takeDigits cs1).1
  let cs2 := (takeDigits cs1).2
  let fp := match cs2 with | '.' :: r => (takeDigits r).1 | _ => []
  let cs3 := match cs2 with | '.' :: r => (takeDigits r).2 | r => r
  if ip.isEmpty && fp.isEmpty then .nan
  else
    let mant : ℚ := (digitsVal ip : ℚ) + (digitsVal fp : ℚ) / ((10 : ℚ) ^ fp.length)
    let expo : Int :=
      match cs3 with
      | 'e' :: '+' :: r | 'E' :: '+' :: r =>
          if (takeDigits r).1.isEmpty then 0 else (digitsVal (takeDigits r).1 : Int)
      | 'e' :: '-' :: r | 'E' :: '-' :: r =>
          if (takeDigits r).1.isEmpty then 0 else -(digitsVal (takeDigits r).1 : Int)
      | 'e' :: r | 'E' :: r =>
          if (takeDigits r).1.isEmpty then 0 else (digitsVal (takeDigits r).1 : Int)
      | _ => 0
    .val (sgn * mant * (10 : ℚ) ^ expo)

/-- Variant of `parseFloat(x)` where `x` may be `undefined` (which stringifies to
`"undefined"` and parses to `NaN`). -/
def parseFloatOpt (a : Option String) : JsNum :=
  match a with
  | some s => jsParseFloat s
  | none => .nan

/-- JS `n || 0` on a parse result: `NaN` (and `0` itself) becomes `0`. -/
def jsNumOr0 : JsNum → JsNum
  | .nan => .val 0
  | n => n

/-! ## Generic adapter (src/src/lib/adapters/genericAdapter.ts) -/

/-- Config `GenericAdapterConfig`: optional field names and data path
(`undefined` members are `none`). -/
structure GenericAdapterConfig where
  timeField : Option String
  openField : Option String
  highField : Option String
  lowField : Option String
  closeField : Option String
  volumeField : Option String
  dataPath : Option String
deriving DecidableEq

/-- The empty config `{}` (every member `undefined`). -/
def emptyGenericConfig : GenericAdapterConfig :=
  ⟨none, none, none, none, none, none, none⟩

/-- Output record of the generic adapter (`CandleData`); `opn` embeds the
reserved field name `open`. -/
structure GenCandle where
  time : String
  opn : JsNum
  high : JsNum
  low : JsNum
  close : JsNum
  volume : JsNum
deriving DecidableEq

/-- JS split on a dot character (worker). -/
def splitDotAux (acc : List Char) : List Char → List (List Char)
  | [] => [acc.reverse]
  | c :: cs => if c == '.' then acc.reverse :: splitDotAux [] cs else splitDotAux (c :: acc) cs

/-- JS split of the data path on dots. -/
def splitOnDot (s : String) : List String :=
  (splitDotAux [] s.toList).map String.mk

/-- The `for (const part of pathParts)` walk of `parseGenericResponse`:
descend through plain (non-array, non-null) objects, stop at the first
non-object. -/
def navigatePath : JsVal → List String → JsVal
  | d, [] => d
  | d, p :: ps =>
      match d with
      | .obj fs => navigatePath (jsGet (.obj fs) p) ps
      | _ => d

/-- The fallback array field names of `parseGenericResponse`. -/
def arrayFields : List String :=
  ["data", "results", "quotes", "candles", "ohlc", "timeseries"]

/-- First of the fallback fields holding an array in the response object. -/
def findArrayField (resp : JsVal) : List String → Option (List JsVal)
  | [] => none
  | f :: fs =>
      match jsGet resp f with
      | .arr xs => some xs
      | _ => findArrayField resp fs

/-- Where `parseGenericResponse` finds its data array: the (possibly
path-navigated) response when that is an array, else the first fallback
array field of a plain-object response; `none` when no array is found. -/
def locateGenericData (response : JsVal) (cfg : GenericAdapterConfig) :
    Option (List JsVal) :=
  let dataPath := cfg.dataPath.getD ""
  let data0 := if dataPath = "" then response else navigatePath response (splitOnDot dataPath)
  match data0 with
  | .arr xs => some xs
  | _ =>
      match response with
      | .obj fs => findArrayField (.obj fs) arrayFields
      | _ => none

/-- The element mapping of `parseGenericResponse`.  JS property access on a
`null`/`undefined` array element throws, embedded as `Except.error`. -/
def parseGenericItem (timeF openF highF lowF closeF volF : String) (item : JsVal) :
    Except Unit GenCandle :=
  if isNullish item then .error ()
  else
    .ok ⟨jsToString (jsOr (jsGet item timeF)
           (jsOr (jsGet item "date") (jsOr (jsGet item "timestamp") (.str "")))),
         jsNumOr0 (jsParseFloat (jsToString (jsOr (jsGet item openF) (.str "0")))),
         jsNumOr0 (jsParseFloat (jsToString (jsOr (jsGet item highF) (.str "0")))),
         jsNumOr0 (jsParseFloat (jsToString (jsOr (jsGet item lowF) (.str "0")))),
         jsNumOr0 (jsParseFloat (jsToString (jsOr (jsGet item closeF) (.str "0")))),
         if truthy (jsGet item volF) then jsParseFloat (jsToString (jsGet item volF))
         else .val 0⟩

/-- Mapping as `Array.prototype.map` where the mapped function may throw: the first
exception propagates and no result is produced. -/
def mapItems (f : JsVal → Except Unit GenCandle) : List JsVal → Except Unit (List GenCandle)
  | [] => .ok []
  | x :: xs =>
      match f x with
      | .error e => .error e
      | .ok y =>
          match mapItems f xs with
          | .error e => .error e
          | .ok ys => .ok (y :: ys)

/-- Function `parseGenericResponse(response, config)` from genericAdapter.ts:
resolve the config defaults, locate the data array, map each element to a
candle record and drop records with an empty time string.  A thrown
`TypeError` (access on a nullish element) is `Except.error`. -/
def parseGenericResponse (response : JsVal) (cfg : GenericAdapterConfig) :
    Except Unit (List GenCandle) :=
  let timeF := cfg.timeField.getD "time"
  let openF := cfg.openField.getD "open"
  let highF := cfg.highField.getD "high"
  let lowF := cfg.lowField.getD "low"
  let closeF := cfg.closeField.getD "close"
  let volF := cfg.volumeField.getD "volume"
  match locateGenericData response cfg with
  | none => .ok []
  | some xs =>
      match mapItems (parseGenericItem timeF openF highF lowF closeF volF) xs with
      | .error e => .error e
      | .ok items => .ok (items.filter (fun r => !(r.time == "")))

/-- Helper `findField` of `detectFieldMappings`: first key of the first element
whose lower-cased name contains one of the patterns (the source lower-cases
the patterns too; they are already lower-case). -/
def findFieldIn (fields : List String) (patterns : List String) : Option String :=
  fields.find? (fun field => patterns.any (fun pat => strIncludes (lowerStr field) (lowerStr pat)))

/-- Function `detectFieldMappings(sampleData)` from genericAdapter.ts. -/
def detectFieldMappings (sampleData : JsVal) : GenericAdapterConfig :=
  match sampleData with
  | .arr (.obj fs :: _) =>
      let fields := fs.map Prod.fst
      ⟨findFieldIn fields ["time", "date", "timestamp", "t", "datetime"],
       findFieldIn fields ["open", "o", "opening_price"],
       findFieldIn fields ["high", "h", "highest_price", "max"],
       findFieldIn fields ["low", "l", "lowest_price", "min"],
       findFieldIn fields ["close", "c", "closing_price", "price"],
       findFieldIn fields ["volume", "vol", "v", "trading_volume"],
       none⟩
  | _ => emptyGenericConfig

/-! ## Coinbase adapter (src/src/lib/adapters/coinbaseAdapter.ts)

Inputs are modelled at the declared TypeScript types: spark-line candles
are 5-tuples of numbers, candle rows are number arrays (so that the
length guard of the source stays meaningful). -/

/-- Quote record `CryptoQuote` of the coinbase adapter. -/
structure CryptoQuote where
  symbol : String
  price : ℚ
  change : ℚ
  changePercent : ℚ
  volume : ℚ
  lastUpdated : String
deriving DecidableEq

/-- Function `parseCoinbaseSparkLines(response)`: one quote per symbol with at least
two candles, from the two most recent candles
`[timestamp, open, high, low, close]`.  `new Date(ts * 1000).toISOString()`
is abstracted as the pure formatting function `iso`. -/
def parseCoinbaseSparkLines (iso : ℚ → String)
    (response : List (String × List (ℚ × ℚ × ℚ × ℚ × ℚ))) : List CryptoQuote :=
  response.filterMap (fun kv =>
    match kv.2 with
    | latest :: prev :: _ =>
        let ts := latest.1
        let close := latest.2.2.2.2
        let previousClose := prev.2.2.2.2
        let change := close - previousClose
        let changePercent := if previousClose ≠ 0 then change / previousClose * 100 else 0
        some ⟨kv.1, close, change, changePercent, 0, iso (ts * 1000)⟩
    | _ => none)

/-- Output record of `parseCoinbaseCandles`; times are the numeric
timestamps of the response rows. -/
structure CoinCandle where
  time : ℚ
  opn : ℚ
  high : ℚ
  low : ℚ
  close : ℚ
  volume : ℚ
deriving DecidableEq

/-- Function `parseCoinbaseCandles(response)`: map rows
`[timestamp, low, high, open, close, volume]` (dropping rows shorter than
6), then sort ascending by the numeric sort key `time * 1000`. -/
def parseCoinbaseCandles (response : List (List ℚ)) : List CoinCandle :=
  (response.filterMap (fun candle =>
    if candle.length < 6 then none
    else some ⟨candle.getD 0 0, candle.getD 3 0, candle.getD 2 0,
               candle.getD 1 0, candle.getD 4 0, candle.getD 5 0⟩)).mergeSort
    (fun a b => decide (a.time * 1000 ≤ b.time * 1000))

/-! ## AlphaVantage adapter (src/src/lib/adapters/alphavantage.ts) -/

/-- The record the source casts each time-series entry to; optional members
model possibly-missing properties.  `o1 h2 l3 c4 adj5 v5 v6` stand for the
keys `1. open`, `2. high`, `3. low`, `4. close`, `5. adjusted close`,
`5. volume` and `6. volume`. -/
structure AVEntryRaw where
  o1 : Option String
  h2 : Option String
  l3 : Option String
  c4 : Option String
  adj5 : Option String
  v5 : Option String
  v6 : Option String
deriving DecidableEq

/-- Output record of `parseTimeSeriesAlphaVantage` (`CandleData` of
alphavantage.ts); fields are `parseFloat` results, hence possibly `NaN`. -/
structure AVCandle where
  time : String
  opn : JsNum
  high : JsNum
  low : JsNum
  close : JsNum
  volume : JsNum
deriving DecidableEq

/-- Function `parseTimeSeriesAlphaVantage(response, interval)`: take the first key
containing the case-sensitive text Time Series, map its entries, then sort
ascending by `new Date(time).getTime()`, abstracted as the pure date-parse
function `dateMillis`.  The `interval` parameter is unused in the source
body. -/
def parseTimeSeriesAlphaVantage (dateMillis : String → Int)
    (response : List (String × List (String × AVEntryRaw)))
    (_interval : String) : List AVCandle :=
  match response.filter (fun kv => strIncludes kv.1 "Time Series") with
  | [] => []
  | (_, series) :: _ =>
      (series.map (fun kv =>
        (⟨kv.1,
          parseFloatOpt kv.2.o1,
          parseFloatOpt kv.2.h2,
          parseFloatOpt kv.2.l3,
          jsParseFloat (strFalsyOr kv.2.c4 (strFalsyOr kv.2.adj5 "0")),
          jsParseFloat (strFalsyOr kv.2.v5 (strFalsyOr kv.2.v6 "0"))⟩ : AVCandle))).mergeSort
        (fun a b => decide (dateMillis a.time ≤ dateMillis b.time))

/-! ## Schema auto-detection (src/src/lib/jsonMapper.ts) -/

/-- Field record `detectedFields` of `detectTimeSeriesStockData`. -/
structure DetectedFields where
  timeField : Option String
  openField : Option String
  highField : Option String
  lowField : Option String
  closeField : Option String
  volumeField : Option String
deriving DecidableEq

/-- Result of `detectTimeSeriesStockData`; `dataType` is one of
`"candlestick"`, `"table"`, `"unknown"`. -/
structure DetectResult where
  isStockData : Bool
  dataType : String
  detectedFields : Option DetectedFields
deriving DecidableEq

/-- Truthy and object-typed: an array or a plain object (`null` is
object-typed but falsy). -/
def isObjLike : JsVal → Bool
  | .arr _ => true
  | .obj _ => true
  | _ => false

/-- Lower-cased keys of a value, as the detector computes them. -/
def lowKeys (v : JsVal) : List String := (jsKeys v).map lowerStr

/-- Keys include the four OHLC substrings. -/
def hasOHLCKeys (keys : List String) : Bool :=
  keys.any (fun k => strIncludes k "open") && keys.any (fun k => strIncludes k "high") &&
    keys.any (fun k => strIncludes k "low") && keys.any (fun k => strIncludes k "close")

/-- Some key contains `time`, `date` or `timestamp`. -/
def hasTimeKey (keys : List String) : Bool :=
  keys.any (fun k =>
    strIncludes k "time" || strIncludes k "date" || strIncludes k "timestamp")

/-- A top-level key naming an AlphaVantage-style series: its lower-casing
contains the text time series (with a space or an underscore). -/
def tsKeyMatch (k : String) : Bool :=
  strIncludes (lowerStr k) "time series" || strIncludes (lowerStr k) "time_series"

/-- The AlphaVantage-style branch of `detectTimeSeriesStockData`: the first
matching top-level key, when its value is object-typed and the first entry
under it is an object-typed value with OHLC keys, yields the candlestick
result. -/
def detectCandidateA (data : JsVal) : Option DetectResult :=
  match (jsKeys data).filter tsKeyMatch with
  | [] => none
  | k0 :: _ =>
      let ts := jsGet data k0
      if isObjLike ts then
        match (jsValues ts).head? with
        | some fe =>
            if isObjLike fe then
              (if hasOHLCKeys (lowKeys fe) then
                some ⟨true, "candlestick",
                  some ⟨none,
                    (lowKeys fe).find? (fun k => strIncludes k "open"),
                    (lowKeys fe).find? (fun k => strIncludes k "high"),
                    (lowKeys fe).find? (fun k => strIncludes k "low"),
                    (lowKeys fe).find? (fun k => strIncludes k "close"),
                    (lowKeys fe).find? (fun k => strIncludes k "volume")⟩⟩
              else none)
            else none
        | none => none
      else none

/-- The array-based branch of `detectTimeSeriesStockData`: a non-empty
array whose object-typed first element has a time-like key and OHLC keys
yields the candlestick result. -/
def detectCandidateB (data : JsVal) : Option DetectResult :=
  match data with
  | .arr (first :: _) =>
      if isObjLike first then
        (if hasTimeKey (lowKeys first) && hasOHLCKeys (lowKeys first) then
          some ⟨true, "candlestick",
            some ⟨(lowKeys first).find? (fun k =>
                    strIncludes k "time" || strIncludes k "date" || strIncludes k "timestamp"),
                  (lowKeys first).find? (fun k => strIncludes k "open"),
                  (lowKeys first).find? (fun k => strIncludes k "high"),
                  (lowKeys first).find? (fun k => strIncludes k "low"),
                  (lowKeys first).find? (fun k => strIncludes k "close"),
                  (lowKeys first).find? (fun k => strIncludes k "volume")⟩⟩
        else none)
      else none
  | _ => none

/-- Function `detectTimeSeriesStockData(data)` from jsonMapper.ts: reject falsy or
non-object-typed input as `unknown`, try the AlphaVantage-style branch,
then the array branch, else classify arrays and non-empty objects as
`table` and empty objects as `unknown`. -/
def detectTimeSeriesStockData (data : JsVal) : DetectResult :=
  match data with
  | .arr _ | .obj _ =>
      (match detectCandidateA data with
       | some r => r
       | none =>
           match detectCandidateB data with
           | some r => r
           | none =>
               match data with
               | .arr _ => ⟨false, "table", none⟩
               | .obj (_ :: _) => ⟨false, "table", none⟩
               | _ => ⟨false, "unknown", none⟩)
  | _ => ⟨false, "unknown", none⟩

/-- Condition (a) of claim C6, on a single key `k`: the first entry under
`k` is an object-typed value whose lower-cased keys include the substrings
`open`, `high`, `low` and `close`. -/
def specKeyA (data : JsVal) (k : String) : Bool :=
  match (jsValues (jsGet data k)).head? with
  | some fe => isObjLike fe && hasOHLCKeys (lowKeys fe)
  | none => false

/-- Condition (a) of claim C6: some top-level key names a time series (with
a space or an underscore) and the first entry under it is OHLC-shaped. -/
def specCandleA (data : JsVal) : Bool :=
  (jsKeys data).any (fun k => tsKeyMatch k && specKeyA data k)

/-- Condition (b) of claim C6: the input is a non-empty array whose first
element has a key containing `time`, `date` or `timestamp` and keys
containing `open`, `high`, `low` and `close`. -/
def specCandleB (data : JsVal) : Bool :=
  match data with
  | .arr (first :: _) => hasTimeKey (lowKeys first) && hasOHLCKeys (lowKeys first)
  | _ => false

/-- The fallback classification claim C6 states for non-candlestick input:
`table` for any array or non-empty object, `unknown` for null, non-object
or empty-object input. -/
def specFallbackType : JsVal → String
  | .arr _ => "table"
  | .obj (_ :: _) => "table"
  | _ => "unknown"

/-! ## Adapter theorems -/

/-- Claim C5: each adapter is a pure function of its arguments: equal
inputs yield equal outputs on every pair of runs.  In the embedding the
adapters are total functions reading nothing but their arguments and
returning fresh records (the source reads no module state on these paths;
`new Date(...)` formatting/parsing enters only through the explicit pure
parameters `iso` and `dateMillis`), so run-to-run determinism and absence
of input mutation hold by construction and are recorded as the
determinism property below. -/
theorem adapters_deterministic :
    (∀ (iso : ℚ → String) (a b : List (String × List (ℚ × ℚ × ℚ × ℚ × ℚ))),
        a = b → parseCoinbaseSparkLines iso a = parseCoinbaseSparkLines iso b) ∧
    (∀ (a b : List (List ℚ)), a = b → parseCoinbaseCandles a = parseCoinbaseCandles b) ∧
    (∀ (dateMillis : String → Int)
       (a b : List (String × List (String × AVEntryRaw))) (interval : String),
        a = b →
        parseTimeSeriesAlphaVantage dateMillis a interval =
          parseTimeSeriesAlphaVantage dateMillis b interval) ∧
    (∀ (a b : JsVal) (c1 c2 : GenericAdapterConfig), a = b → c1 = c2 →
        parseGenericResponse a c1 = parseGenericResponse b c2) := by
  refine ⟨?_, ?_, ?_, ?_⟩
  · intro iso a b h; rw [h]
  · intro a b h; rw [h]
  · intro dm a b i h; rw [h]
  · intro a b c1 c2 h1 h2; rw [h1, h2]

/-- Closed instance of `adapters_deterministic`: two runs of the generic
adapter on the empty-array response agree. -/
theorem adapters_deterministic_witness :
    parseGenericResponse (.arr []) emptyGenericConfig =
      parseGenericResponse (.arr []) emptyGenericConfig :=
  adapters_deterministic.2.2.2 (.arr []) (.arr []) emptyGenericConfig emptyGenericConfig
    rfl rfl

/-- Shape condition of claim C7: a non-empty array whose first element is a
non-array, non-null object. -/
def genericSampleShape : JsVal → Bool
  | .arr (.obj _ :: _) => true
  | _ => false

/-- Claim C7: `detectFieldMappings` returns the empty config unless the
sample is a non-empty array whose first element is a plain object, and then
maps each of the six target fields to the first key of the first element
whose lower-cased name contains one of the fixed patterns of that field (`none`
when no key matches). -/
theorem detectFieldMappings_characterization :
    (∀ sample : JsVal, genericSampleShape sample = false →
        detectFieldMappings sample = emptyGenericConfig) ∧
    (∀ (fs : List (String × JsVal)) (rest : List JsVal),
        detectFieldMappings (.arr (.obj fs :: rest)) =
          ⟨(fs.map Prod.fst).find? (fun f =>
              (["time", "date", "timestamp", "t", "datetime"] : List String).any
                (fun p => strIncludes (lowerStr f) p)),
           (fs.map Prod.fst).find? (fun f =>
              (["open", "o", "opening_price"] : List String).any
                (fun p => strIncludes (lowerStr f) p)),
           (fs.map Prod.fst).find? (fun f =>
              (["high", "h", "highest_price", "max"] : List String).any
                (fun p => strIncludes (lowerStr f) p)),
           (fs.map Prod.fst).find? (fun f =>
              (["low", "l", "lowest_price", "min"] : List String).any
                (fun p => strIncludes (lowerStr f) p)),
           (fs.map Prod.fst).find? (fun f =>
              (["close", "c", "closing_price", "price"] : List String).any
                (fun p => strIncludes (lowerStr f) p)),
           (fs.map Prod.fst).find? (fun f =>
              (["volume", "vol", "v", "trading_volume"] : List String).any
                (fun p => strIncludes (lowerStr f) p)),
           none⟩) := by
  constructor
  · intro sample hshape
    cases sample with
    | arr elems =>
        cases elems with
        | nil => rfl
        | cons first rest =>
            cases first <;> first | rfl | (exfalso; simp [genericSampleShape] at hshape)
    | undefined => rfl
    | null => rfl
    | bool b => rfl
    | num n => rfl
    | str s => rfl
    | obj fs => rfl
  · intro fs rest
    rfl

/-- Closed instance of `detectFieldMappings_characterization`: a `null`
sample yields the empty config. -/
theorem detectFieldMappings_characterization_witness :
    detectFieldMappings .null = emptyGenericConfig :=
  detectFieldMappings_characterization.1 .null rfl

/-- Claim C8: the candle lists of `parseCoinbaseCandles` and
`parseTimeSeriesAlphaVantage` are sorted by time in nondecreasing order
(under the comparator key each sort uses: the numeric timestamp for
Coinbase, the parsed date for AlphaVantage), for every input response. -/
theorem candles_sorted_by_time :
    (∀ response : List (List ℚ),
        List.Sorted (fun a b : CoinCandle => a.time ≤ b.time)
          (parseCoinbaseCandles response)) ∧
    (∀ (dateMillis : String → Int)
       (response : List (String × List (String × AVEntryRaw))) (interval : String),
        List.Sorted (fun a b : AVCandle => dateMillis a.time ≤ dateMillis b.time)
          (parseTimeSeriesAlphaVantage dateMillis response interval)) := by
  constructor
  · intro response
    unfold parseCoinbaseCandles
    have h := @List.sorted_mergeSort CoinCandle
      (fun a b => decide (a.time * 1000 ≤ b.time * 1000))
      (by intro a b c hab hbc
          simp only [decide_eq_true_eq] at hab hbc ⊢
          exact le_trans hab hbc)
      (by intro a b
          simp only [Bool.or_eq_true, decide_eq_true_eq]
          exact le_total _ _)
      (response.filterMap (fun candle =>
        if candle.length < 6 then none
        else some ⟨candle.getD 0 0, candle.getD 3 0, candle.getD 2 0,
                   candle.getD 1 0, candle.getD 4 0, candle.getD 5 0⟩))
    refine h.imp ?_
    intro a b hab
    simp only [decide_eq_true_eq] at hab
    have h1000 : (0 : ℚ) < 1000 := by norm_num
    exact (mul_le_mul_right h1000).mp hab
  · intro dateMillis response interval
    unfold parseTimeSeriesAlphaVantage
    cases response.filter (fun kv => strIncludes kv.1 "Time Series") with
    | nil => simp [List.Sorted]
    | cons kv rest =>
        have h := @List.sorted_mergeSort AVCandle
          (fun a b => decide (dateMillis a.time ≤ dateMillis b.time))
          (by intro a b c hab hbc
              simp only [decide_eq_true_eq] at hab hbc ⊢
              exact le_trans hab hbc)
          (by intro a b
              simp only [Bool.or_eq_true, decide_eq_true_eq]
              exact le_total _ _)
          (kv.2.map (fun kv2 =>
            (⟨kv2.1,
              parseFloatOpt kv2.2.o1,
              parseFloatOpt kv2.2.h2,
              parseFloatOpt kv2.2.l3,
              jsParseFloat (strFalsyOr kv2.2.c4 (strFalsyOr kv2.2.adj5 "0")),
              jsParseFloat (strFalsyOr kv2.2.v5 (strFalsyOr kv2.2.v6 "0"))⟩ : AVCandle)))
        refine h.imp ?_
        intro a b hab
        simpa only [decide_eq_true_eq] using hab

theorem detectCandidateA_spec {data : JsVal} {r : DetectResult}
    (h : detectCandidateA data = some r) :
    specCandleA data = true ∧ r.isStockData = true ∧ r.dataType = "candlestick" ∧
      ∃ df, r.detectedFields = some df ∧ df.openField.isSome ∧ df.highField.isSome ∧
        df.lowField.isSome ∧ df.closeField.isSome := by
  unfold detectCandidateA at h
  cases hf : (jsKeys data).filter tsKeyMatch with
  | nil => rw [hf] at h; exact absurd h (by simp)
  | cons k0 ks =>
      rw [hf] at h
      dsimp only at h
      cases hts : isObjLike (jsGet data k0) with
      | false => rw [hts] at h; exact absurd h (by simp)
      | true =>
          rw [hts] at h
          simp only [if_true] at h
          cases hfe : (jsValues (jsGet data k0)).head? with
          | none => rw [hfe] at h; exact absurd h (by simp)
          | some fe =>
              rw [hfe] at h
              dsimp only at h
              cases hobj : isObjLike fe with
              | false => rw [hobj] at h; exact absurd h (by simp)
              | true =>
                  rw [hobj] at h
                  simp only [if_true] at h
                  cases hohlc : hasOHLCKeys (lowKeys fe) with
                  | false => rw [hohlc] at h; exact absurd h (by simp)
                  | true =>
                      rw [hohlc] at h
                      simp only [if_true, Option.some.injEq] at h
                      have hk0 : k0 ∈ (jsKeys data).filter tsKeyMatch := by
                        rw [hf]; exact List.mem_cons_self k0 ks
                      have hk0m := List.mem_filter.mp hk0
                      have hohlc4 := hohlc
                      unfold hasOHLCKeys at hohlc4
                      simp only [Bool.and_eq_true] at hohlc4
                      refine ⟨?_, ?_, ?_, ?_⟩
                      · unfold specCandleA
                        rw [List.any_eq_true]
                        refine ⟨k0, hk0m.1, ?_⟩
                        rw [Bool.and_eq_true]
                        exact ⟨hk0m.2, by unfold specKeyA; rw [hfe]; simp [hobj, hohlc]⟩
                      · rw [← h]
                      · rw [← h]
                      · refine ⟨_, by rw [← h], ?_, ?_, ?_, ?_⟩ <;>
                          · rw [Option.isSome_iff_exists]
                            dsimp only
                            rw [← Option.isSome_iff_exists, List.find?_isSome]
                            first
                            | exact List.any_eq_true.mp hohlc4.1.1.1
                            | exact List.any_eq_true.mp hohlc4.1.1.2
                            | exact List.any_eq_true.mp hohlc4.1.2
                            | exact List.any_eq_true.mp hohlc4.2

theorem detectCandidateA_none {data : JsVal} (h : specCandleA data = false) :
    detectCandidateA data = none := by
  unfold detectCandidateA
  cases hf : (jsKeys data).filter tsKeyMatch with
  | nil => rfl
  | cons k0 ks =>
      have hk0 : k0 ∈ (jsKeys data).filter tsKeyMatch := by
        rw [hf]; exact List.mem_cons_self k0 ks
      have hk0m := List.mem_filter.mp hk0
      have hspec : specKeyA data k0 = false := by
        unfold specCandleA at h
        rw [List.any_eq_false] at h
        have := h k0 hk0m.1
        simp only [Bool.and_eq_true, not_and, Bool.not_eq_true] at this
        exact this hk0m.2
      dsimp only
      cases hts : isObjLike (jsGet data k0) with
      | false => simp
      | true =>
          simp only [if_true]
          cases hfe : (jsValues (jsGet data k0)).head? with
          | none => rfl
          | some fe =>
              dsimp only
              unfold specKeyA at hspec
              rw [hfe] at hspec
              rw [Bool.and_eq_false_iff] at hspec
              rcases hspec with h1 | h2
              · rw [h1]; simp
              · cases hobj : isObjLike fe with
                | false => simp
                | true => rw [h2]; simp

theorem detectCandidateB_spec {data : JsVal} {r : DetectResult}
    (h : detectCandidateB data = some r) :
    specCandleB data = true ∧ r.isStockData = true ∧ r.dataType = "candlestick" ∧
      ∃ df, r.detectedFields = some df ∧ df.openField.isSome ∧ df.highField.isSome ∧
        df.lowField.isSome ∧ df.closeField.isSome := by
  unfold detectCandidateB at h
  cases data with
  | arr elems =>
      cases elems with
      | nil => exact absurd h (by simp)
      | cons first rest =>
          dsimp only at h
          cases hobj : isObjLike first with
          | false => rw [hobj] at h; exact absurd h (by simp)
          | true =>
              rw [hobj] at h
              simp only [if_true] at h
              cases hcond : hasTimeKey (lowKeys first) && hasOHLCKeys (lowKeys first) with
              | false => rw [hcond] at h; exact absurd h (by simp)
              | true =>
                  rw [hcond] at h
                  simp only [if_true, Option.some.injEq] at h
                  rw [Bool.and_eq_true] at hcond
                  have hohlc4 := hcond.2
                  unfold hasOHLCKeys at hohlc4
                  simp only [Bool.and_eq_true] at hohlc4
                  refine ⟨?_, by rw [← h], by rw [← h], ?_⟩
                  · unfold specCandleB
                    rw [Bool.and_eq_true]
                    exact hcond
                  · refine ⟨_, by rw [← h], ?_, ?_, ?_, ?_⟩ <;>
                      · rw [Option.isSome_iff_exists]
                        dsimp only
                        rw [← Option.isSome_iff_exists, List.find?_isSome]
                        first
                        | exact List.any_eq_true.mp hohlc4.1.1.1
                        | exact List.any_eq_true.mp hohlc4.1.1.2
                        | exact List.any_eq_true.mp hohlc4.1.2
                        | exact List.any_eq_true.mp hohlc4.2
  | undefined => exact absurd h (by simp)
  | null => exact absurd h (by simp)
  | bool b => exact absurd h (by simp)
  | num n => exact absurd h (by simp)
  | str s => exact absurd h (by simp)
  | obj fs => exact absurd h (by simp)

theorem detectCandidateB_none {data : JsVal} (h : specCandleB data = false) :
    detectCandidateB data = none := by
  unfold detectCandidateB
  cases data with
  | arr elems =>
      cases elems with
      | nil => rfl
      | cons first rest =>
          unfold specCandleB at h
          dsimp only at h ⊢
          cases hobj : isObjLike first with
          | false => simp
          | true => rw [h]; simp
  | undefined => rfl
  | null => rfl
  | bool b => rfl
  | num n => rfl
  | str s => rfl
  | obj fs => rfl

/-- Claim C6: `detectTimeSeriesStockData` returns `candlestick` (with
`isStockData` and detected OHLC field names) only if condition (a) (an
AlphaVantage-style key whose first entry is OHLC-shaped) or condition (b)
(a non-empty array whose first element has a time-like key and OHLC keys)
holds; when neither holds it returns `isStockData = false` with
`dataType = "table"` for any array or non-empty object and
`dataType = "unknown"` for null, non-object or empty-object input. -/
theorem detectTimeSeriesStockData_characterization :
    ∀ data : JsVal,
      ((detectTimeSeriesStockData data).dataType = "candlestick" →
        (specCandleA data = true ∨ specCandleB data = true) ∧
        (detectTimeSeriesStockData data).isStockData = true ∧
        ∃ df, (detectTimeSeriesStockData data).detectedFields = some df ∧
          df.openField.isSome ∧ df.highField.isSome ∧
          df.lowField.isSome ∧ df.closeField.isSome) ∧
      (specCandleA data = false → specCandleB data = false →
        (detectTimeSeriesStockData data).isStockData = false ∧
        (detectTimeSeriesStockData data).dataType = specFallbackType data) := by
  have main : ∀ data : JsVal, (∃ xs, data = .arr xs) ∨ (∃ fs, data = .obj fs) →
      ((detectTimeSeriesStockData data).dataType = "candlestick" →
        (specCandleA data = true ∨ specCandleB data = true) ∧
        (detectTimeSeriesStockData data).isStockData = true ∧
        ∃ df, (detectTimeSeriesStockData data).detectedFields = some df ∧
          df.openField.isSome ∧ df.highField.isSome ∧
          df.lowField.isSome ∧ df.closeField.isSome) ∧
      (specCandleA data = false → specCandleB data = false →
        (detectTimeSeriesStockData data).isStockData = false ∧
        (detectTimeSeriesStockData data).dataType = specFallbackType data) := by
    intro data hshape
    have hdet : ∀ r, detectCandidateA data = some r → detectTimeSeriesStockData data = r := by
      intro r hr
      rcases hshape with ⟨xs, hx⟩ | ⟨fs, hx⟩ <;> subst hx <;>
        simp [detectTimeSeriesStockData, hr]
    have hdetB : ∀ r, detectCandidateA data = none → detectCandidateB data = some r →
        detectTimeSeriesStockData data = r := by
      intro r hra hrb
      rcases hshape with ⟨xs, hx⟩ | ⟨fs, hx⟩ <;> subst hx <;>
        simp [detectTimeSeriesStockData, hra, hrb]
    constructor
    · intro hcand
      cases hA : detectCandidateA data with
      | some r =>
          have heq := hdet r hA
          have hs := detectCandidateA_spec hA
          rw [heq]
          exact ⟨Or.inl hs.1, hs.2.1, heq ▸ hs.2.2.2⟩
      | none =>
          cases hB : detectCandidateB data with
          | some r =>
              have heq := hdetB r hA hB
              have hs := detectCandidateB_spec hB
              rw [heq]
              exact ⟨Or.inr hs.1, hs.2.1, heq ▸ hs.2.2.2⟩
          | none =>
              exfalso
              rcases hshape with ⟨xs, hx⟩ | ⟨fs, hx⟩ <;> subst hx
              · rw [show detectTimeSeriesStockData (.arr xs) =
                    ⟨false, "table", none⟩ by simp [detectTimeSeriesStockData, hA, hB]] at hcand
                exact absurd hcand (by decide)
              · cases fs with
                | nil =>
                    rw [show detectTimeSeriesStockData (.obj []) =
                        ⟨false, "unknown", none⟩ by
                      simp [detectTimeSeriesStockData, hA, hB]] at hcand
                    exact absurd hcand (by decide)
                | cons f fs2 =>
                    rw [show detectTimeSeriesStockData (.obj (f :: fs2)) =
                        ⟨false, "table", none⟩ by
                      simp [detectTimeSeriesStockData, hA, hB]] at hcand
                    exact absurd hcand (by decide)
    · intro hsa hsb
      have hA := detectCandidateA_none hsa
      have hB := detectCandidateB_none hsb
      rcases hshape with ⟨xs, hx⟩ | ⟨fs, hx⟩ <;> subst hx
      · constructor <;> simp [detectTimeSeriesStockData, hA, hB, specFallbackType]
      · cases fs with
        | nil => constructor <;> simp [detectTimeSeriesStockData, hA, hB, specFallbackType]
        | cons f fs2 =>
            constructor <;> simp [detectTimeSeriesStockData, hA, hB, specFallbackType]
  intro data
  cases data with
  | arr xs => exact main (.arr xs) (Or.inl ⟨xs, rfl⟩)
  | obj fs => exact main (.obj fs) (Or.inr ⟨fs, rfl⟩)
  | undefined => exact ⟨fun h => absurd h (by decide), fun _ _ => ⟨rfl, rfl⟩⟩
  | null => exact ⟨fun h => absurd h (by decide), fun _ _ => ⟨rfl, rfl⟩⟩
  | bool b => exact ⟨fun h => absurd h (by simp [detectTimeSeriesStockData]),
      fun _ _ => ⟨rfl, rfl⟩⟩
  | num n => exact ⟨fun h => absurd h (by simp [detectTimeSeriesStockData]),
      fun _ _ => ⟨rfl, rfl⟩⟩
  | str s => exact ⟨fun h => absurd h (by simp [detectTimeSeriesStockData]),
      fun _ _ => ⟨rfl, rfl⟩⟩

/-- Closed instance of `detectTimeSeriesStockData_characterization`: a
string input satisfies neither candlestick condition and classifies as
`unknown`. -/
theorem detectTimeSeriesStockData_characterization_witness :
    (detectTimeSeriesStockData (.str "hello")).dataType = specFallbackType (.str "hello") :=
  ((detectTimeSeriesStockData_characterization (.str "hello")).2 rfl rfl).2

theorem jsNumOr0_ne_nan (n : JsNum) : jsNumOr0 n ≠ .nan := by
  cases n <;> simp [jsNumOr0]

theorem parseGenericItem_ok (tF oF hF lF cF vF : String) (item : JsVal)
    (h : isNullish item = false) :
    ∃ rec, parseGenericItem tF oF hF lF cF vF item = .ok rec ∧
      rec.opn ≠ .nan ∧ rec.high ≠ .nan ∧ rec.low ≠ .nan ∧ rec.close ≠ .nan := by
  unfold parseGenericItem
  rw [h]
  simp only [Bool.false_eq_true, if_false]
  refine ⟨_, rfl, ?_, ?_, ?_, ?_⟩ <;> exact jsNumOr0_ne_nan _

theorem mapItems_ok (tF oF hF lF cF vF : String) :
    ∀ (xs : List JsVal), (∀ x ∈ xs, isNullish x = false) →
      ∃ l, mapItems (parseGenericItem tF oF hF lF cF vF) xs = .ok l ∧
        ∀ r ∈ l, r.opn ≠ .nan ∧ r.high ≠ .nan ∧ r.low ≠ .nan ∧ r.close ≠ .nan := by
  intro xs
  induction xs with
  | nil => intro _; exact ⟨[], rfl, by simp⟩
  | cons x xs ih =>
      intro hall
      obtain ⟨rec, hrec, hp⟩ := parseGenericItem_ok tF oF hF lF cF vF x (hall x (by simp))
      obtain ⟨l, hl, hp2⟩ := ih (fun y hy => hall y (by simp [hy]))
      refine ⟨rec :: l, by simp [mapItems, hrec, hl], ?_⟩
      intro r hr
      rcases List.mem_cons.mp hr with h1 | h2
      · subst h1; exact hp
      · exact hp2 r h2

/-- Amended claim C9: `parseGenericResponse` returns the empty list when no
data array can be located, and on a located array none of whose elements is
`null`/`undefined` it returns (never throws) a list of records whose time
strings are non-empty and whose `open`, `high`, `low` and `close` fields
are never `NaN` (missing or unparseable values become `0`).  The
unamendable parts of the original claim: a nullish array element makes the
source throw a `TypeError`, and a present, truthy but unparseable `volume`
value yields `NaN` (its `parseFloat` result is not guarded by `|| 0`). -/
theorem parseGenericResponse_safety :
    ∀ (response : JsVal) (cfg : GenericAdapterConfig),
      (locateGenericData response cfg = none →
        parseGenericResponse response cfg = .ok []) ∧
      (∀ xs, locateGenericData response cfg = some xs →
        (∀ x ∈ xs, isNullish x = false) →
        ∃ l, parseGenericResponse response cfg = .ok l ∧
          ∀ r ∈ l, r.time ≠ "" ∧ r.opn ≠ .nan ∧ r.high ≠ .nan ∧
            r.low ≠ .nan ∧ r.close ≠ .nan) := by
  intro response cfg
  constructor
  · intro h
    simp only [parseGenericResponse]
    rw [h]
  · intro xs hloc hnn
    obtain ⟨l, hl, hp⟩ := mapItems_ok (cfg.timeField.getD "time") (cfg.openField.getD "open")
      (cfg.highField.getD "high") (cfg.lowField.getD "low") (cfg.closeField.getD "close")
      (cfg.volumeField.getD "volume") xs hnn
    refine ⟨l.filter (fun r => !(r.time == "")), ?_, ?_⟩
    · simp only [parseGenericResponse]
      rw [hloc]
      dsimp only
      rw [hl]
    · intro r hr
      have hm := List.mem_filter.mp hr
      have ht : ¬(r.time = "") := by simpa using hm.2
      exact ⟨ht, (hp r hm.1).1, (hp r hm.1).2.1, (hp r hm.1).2.2.1, (hp r hm.1).2.2.2⟩

/-- A located array whose single element is a plain object with a time
string. -/
def safeGenericInput : JsVal := .arr [.obj [("time", .str "t1")]]

/-- Closed instance of `parseGenericResponse_safety` at `safeGenericInput`
and the empty config. -/
theorem parseGenericResponse_safety_witness :
    ∃ l, parseGenericResponse safeGenericInput emptyGenericConfig = .ok l ∧
      ∀ r ∈ l, r.time ≠ "" ∧ r.opn ≠ .nan ∧ r.high ≠ .nan ∧
        r.low ≠ .nan ∧ r.close ≠ .nan :=
  (parseGenericResponse_safety safeGenericInput emptyGenericConfig).2
    [.obj [("time", .str "t1")]] rfl (by decide)

/-- Response on which claim C9 fails: the volume value of the record is
present and truthy but unparseable. -/
def nanVolumeInput : JsVal :=
  .arr [.obj [("time", .str "2024-01-01"), ("volume", .str "zzz")]]

/-- Counterexample to claim C9 as stated: on `nanVolumeInput` with the
default config, `parseGenericResponse` returns a record whose `volume`
field is `NaN` (the source computes
`item[volumeField] ? parseFloat(String(item[volumeField])) : 0`, and
parseFloat of the text zzz is `NaN` with no or-zero guard), contradicting the
claim that every returned `volume` field is a real number and never
`NaN`. -/
theorem parseGenericResponse_nan_volume :
    (match parseGenericResponse nanVolumeInput emptyGenericConfig with
     | .ok l => l.map (fun r => (r.time, r.volume))
     | .error _ => []) = [("2024-01-01", JsNum.nan)] := rfl

end Finget
